import Mathlib

/-!
Verification development for the parallel prime-counting repository.

The repository's TypeScript sources are shallowly embedded below:
* `isPrime`, `powerBigInt`, `millerTestBigInt` — src/primeCalculator.ts
  (src/unnamed/part_001, lines 66-130);
* the chunk reader of `processTask` — src/multithreading/src/worker.ts;
* `TaskManager` — src/unnamed/part_000;
* `WorkerStatsManager` — src/unnamed/part_004;
* the orchestrator's `createWorker` error handler and `assignTaskToWorker`
  — src/unnamed/part_003.

JavaScript numbers are modelled as `Nat`/`Int` where the program only ever
holds integers (byte offsets, counters, ids) and as `Rat` where the program
holds measured durations and averages (every arithmetic operation the
embedded code performs on those values is exact in binary floating point at
the magnitudes the claims concern, so `Rat` is a faithful idealization).
JavaScript `Map` objects are modelled as functions into `Option`,
JavaScript arrays as `List` with `push` appending at the back, `pop`
removing at the back and `shift` removing at the front.
-/

namespace RebaseCourse

/-- A task: a half-open byte range of the input file plus an id
(src/types.ts, `Task`). -/
structure Task where
  startByte : Nat
  endByte : Nat
  id : Nat
deriving DecidableEq, Repr

/-- Worker performance class (src/types.ts, `WorkerPerformance`). -/
inductive WorkerPerformance where
  | slow
  | average
  | fast
deriving DecidableEq, Repr

/-- Per-worker statistics record (src/types.ts, `WorkerStats`). -/
structure WorkerStatsEntry where
  tasksCompleted : Nat
  totalProcessingTime : Rat
  primesFound : Nat
  avgProcessingTime : Rat
deriving DecidableEq, Repr

/-- The message a worker posts on success (src/types.ts, `WorkerResult`).
The `memoryUsage` field of the source is process metadata never read by the
logic embedded here and is omitted. -/
structure WorkerResult where
  count : Nat
  workerId : Nat
  taskCompleted : Task
  processingTime : Rat
deriving DecidableEq, Repr

/-! ## Primality oracle (src/primeCalculator.ts, part_001 lines 66-130) -/

/-- The `while (exp > 0)` loop of `powerBigInt(base, exp, mod)`:
modular exponentiation by repeated squaring, accumulator `res`.  The
first argument is an iteration budget that keeps the recursion structural
(so that the kernel can evaluate the function); the wrapper `powerBigInt`
passes `exp`, which always suffices since the loop runs at most the bit
length of `exp` times (`powerBigIntAux_stable` proves the budget
irrelevant). -/
def powerBigIntAux (m : Nat) : Nat → Nat → Nat → Nat → Nat
  | 0, _, _, res => res
  | fuel + 1, base, exp, res =>
    if exp = 0 then res
    else
      powerBigIntAux m fuel (base * base % m) (exp / 2)
        (if exp % 2 = 1 then res * base % m else res)

/-- `powerBigInt` of the source: `base %= mod`, `res = 1`, then the
loop. -/
def powerBigInt (base exp m : Nat) : Nat :=
  powerBigIntAux m exp (base % m) exp 1

/-- The `while (current_d * 2n <= n - 1n)` loop of `millerTestBigInt`,
entered with the current exponent `current_d` and the current power `x`.
The first argument is again a structural iteration budget; the caller
passes `n`, which suffices since `current_d` doubles every iteration
(`millerLoopAux_stable`). -/
def millerLoopAux (n : Nat) : Nat → Nat → Nat → Bool
  | 0, _, _ => false
  | fuel + 1, current_d, x =>
    if current_d * 2 ≤ n - 1 then
      let x' := x * x % n
      if x' = 1 then false
      else if x' = n - 1 then true
      else millerLoopAux n fuel (current_d * 2) x'
    else false

/-- `millerTestBigInt(d, n, a)` of the source. -/
def millerTestBigInt (d n a : Nat) : Bool :=
  let x := powerBigInt a d n
  if x = 1 ∨ x = n - 1 then true
  else millerLoopAux n n d x

/-- The `6k±1` trial-division loop `for (let i = 5; i * i <= num; i += 6)`.
The source contains this loop twice (once inside a redundant `num < 25`
branch, once after it); both copies are textually identical, so a single
function models both.  The first argument is a structural iteration
budget; the caller passes `num`, which suffices since the loop stops once
`i * i > num` and `i` grows by `6` per iteration (`trialLoopAux_stable`). -/
def trialLoopAux (num : Nat) : Nat → Nat → Bool
  | 0, _ => true
  | fuel + 1, i =>
    if i * i ≤ num then
      if num % i = 0 ∨ num % (i + 2) = 0 then false
      else trialLoopAux num fuel (i + 6)
    else true

/-- `while (d % 2n === 0n) d /= 2n`: strip factors of two.  The first
argument is a structural iteration budget; the caller passes `d`, which
suffices since `d` halves every iteration (`oddPartAux_stable`). -/
def oddPartAux : Nat → Nat → Nat
  | 0, d => d
  | fuel + 1, d => if d % 2 = 0 then oddPartAux fuel (d / 2) else d

/-- The odd part of `d` as computed by `isPrime` (there `d = n - 1 ≥
10000`, so the budget `d` is ample; the source loop would not terminate
at all on `d = 0`, which `isPrime` never passes). -/
def oddPart (d : Nat) : Nat :=
  oddPartAux d d

/-- The deterministic Miller-Rabin witnesses of the source
(`bases_for_64bit`). -/
def basesFor64Bit : List Nat :=
  [2, 325, 9375, 28178, 450775, 9780504, 1795265022]

/-- The `for (const base_num of bases_for_64bit)` loop of `isPrime`:
`n === a` returns `true` for the whole call, `a >= n - 1` skips the base,
a failed Miller test returns `false`, and exhausting the list returns
`true`. -/
def basesLoop (d n : Nat) : List Nat → Bool
  | [] => true
  | a :: rest =>
    if n = a then true
    else if n - 1 ≤ a then basesLoop d n rest
    else if millerTestBigInt d n a then basesLoop d n rest
    else false

/-- `isPrime(num)` of src/primeCalculator.ts.  The argument is an `Int`
because the source accepts any JavaScript number; all branches below
mirror the source in order. -/
def isPrime (num : Int) : Bool :=
  if num ≤ 1 then false
  else if num ≤ 3 then true
  else if num % 2 = 0 ∨ num % 3 = 0 then false
  else
    let n := num.toNat
    if n < 10000 then trialLoopAux n n 5
    else basesLoop (oddPart (n - 1)) n basesFor64Bit

/-! ## Chunk reader (src/multithreading/src/worker.ts, `processTask`)

`processTask` opens a read stream over bytes `[startByte, endByte)`
(`createReadStream` with inclusive `end: task.endByte - 1`) and feeds it to
`readline`.  `readline` emits a `line` event at every `\n` (the terminator
is not part of the line) and, when the stream ends with a non-empty
residual buffer, emits that residual as a final line.  File bytes are
modelled as a `List Char`.  Lines are split at `\n` only; with
`crlfDelay: Infinity` the source treats `\r\n` as one terminator, which
has the same observable effect here because `trim` removes a trailing
`\r` before parsing. -/

/-- The `readline` line decomposition of a byte sequence: split at every
newline; a non-empty unterminated residue is emitted as a final line. -/
def splitLines : List Char → List Char → List (List Char)
  | [], acc => if acc = [] then [] else [acc.reverse]
  | c :: rest, acc =>
    if c = '\n' then acc.reverse :: splitLines rest []
    else splitLines rest (c :: acc)

/-- JavaScript `String.prototype.trim` whitespace. -/
def isJsWhitespace (c : Char) : Bool :=
  c = ' ' ∨ c = '\t' ∨ c = '\n' ∨ c = '\r' ∨ c = '\x0b' ∨ c = '\x0c'

/-- `line.trim()`. -/
def jsTrim (l : List Char) : List Char :=
  ((l.dropWhile isJsWhitespace).reverse.dropWhile isJsWhitespace).reverse

/-- Decimal digit run value. -/
def digitsToNat (l : List Char) : Nat :=
  l.foldl (fun n c => 10 * n + (c.toNat - '0'.toNat)) 0

/-- The digit-prefix part of `parseInt(s, 10)`: the longest leading run of
decimal digits, `none` when there is none (`NaN`). -/
def parseDigits (l : List Char) : Option Int :=
  let ds := l.takeWhile fun c => c.isDigit
  if ds = [] then none else some (digitsToNat ds)

/-- `parseInt(s, 10)` on an already trimmed string: optional sign, then a
digit prefix; `none` models `NaN`. -/
def jsParseInt : List Char → Option Int
  | '-' :: rest => (parseDigits rest).map (fun n => -n)
  | '+' :: rest => parseDigits rest
  | l => parseDigits l

/-- The lines the task over `[s, e)` hands to its line handler: the bytes
of the range, split by `readline`, with the first line dropped when
`startByte > 0` (the `isFirstLine && task.startByte > 0` skip). -/
def taskLines (content : List Char) (s e : Nat) : List (List Char) :=
  let ls := splitLines ((content.drop s).take (e - s)) []
  if 0 < s then ls.drop 1 else ls

/-- The integers the task over `[s, e)` parses: each emitted line is
trimmed and fed to `parseInt`; `NaN` lines are dropped
(`!isNaN(num)`). -/
def taskInts (content : List Char) (s e : Nat) : List Int :=
  (taskLines content s e).filterMap fun l => jsParseInt (jsTrim l)

/-- The prime count `processTask` resolves with for the range `[s, e)`. -/
def taskPrimeCount (content : List Char) (s e : Nat) : Nat :=
  ((taskInts content s e).filter fun n => isPrime n).length

/-- Reading the whole file line by line with the same reader: the integer
sequence of the file. -/
def fileInts (content : List Char) : List Int :=
  (splitLines content []).filterMap fun l => jsParseInt (jsTrim l)

/-- The prime count of the whole file read line by line. -/
def filePrimeCount (content : List Char) : Nat :=
  ((fileInts content).filter fun n => isPrime n).length

/-! ## Task manager (src/unnamed/part_000, `TaskManager`)

`NUM_CORES` is the host CPU count; it is a parameter `ncores` below.
Durations are `Rat` (see the header); every chunk-size value the source
computes is an exact integer (all four adaptive base sizes are even), so
chunk arithmetic is carried out in `Nat`, with `Math.ceil` noted where the
source applies it. -/

/-- `MIN_CHUNK_SIZE = 1024 * 1024`. -/
def MIN_CHUNK_SIZE : Nat := 1024 * 1024

/-- `MAX_CHUNK_SIZE = 10 * 1024 * 1024`. -/
def MAX_CHUNK_SIZE : Nat := 10 * 1024 * 1024

/-- Mutable state of a `TaskManager` instance. -/
structure TaskManager where
  taskIdCounter : Nat
  performanceHistory : List Rat
  recentGlobalAverage : Rat
deriving DecidableEq, Repr

/-- A freshly constructed `TaskManager` (field initializers of the
class). -/
def TaskManager.new : TaskManager :=
  { taskIdCounter := 0, performanceHistory := [], recentGlobalAverage := 0 }

/-- `Math.ceil(a / b)` for natural `a` and positive natural `b`. -/
def ceilDiv (a b : Nat) : Nat :=
  (a + b - 1) / b

/-- `calculateOptimalChunkSize(fileSize)` (part_000 lines 29-43). -/
def calculateOptimalChunkSize (ncores fileSize : Nat) : Nat :=
  if fileSize < MIN_CHUNK_SIZE * ncores * 2 then
    max (ceilDiv fileSize (ncores * 2)) 1024
  else if fileSize < MAX_CHUNK_SIZE * ncores * 4 then
    ceilDiv fileSize (ncores * 4)
  else
    min (max (ceilDiv fileSize (ncores * 4)) MIN_CHUNK_SIZE) MAX_CHUNK_SIZE

/-- `calculateChunkSize(globalAverageTime)` (part_000 lines 47-69): the
adaptive base size.  `this.recentGlobalAverage || globalAverageTime` falls
back when the cached average is `0` (falsy).  The final `Math.ceil` is the
identity: each branch value is an integer
(`(MIN + MAX) / 4 = 2883584`, `(MIN + MAX) / 2 = 5767168`). -/
def calculateChunkSize (tm : TaskManager) (globalAverageTime : Rat) : Nat :=
  let avgTime := if tm.recentGlobalAverage = 0 then globalAverageTime
    else tm.recentGlobalAverage
  if avgTime > 1000 then MIN_CHUNK_SIZE
  else if avgTime > 500 then (MIN_CHUNK_SIZE + MAX_CHUNK_SIZE) / 4
  else if avgTime > 200 then (MIN_CHUNK_SIZE + MAX_CHUNK_SIZE) / 2
  else MAX_CHUNK_SIZE

/-- The `switch (workerPerformance)` of `createAdaptiveTask` (part_000
lines 82-91).  Every possible base is even, so `baseChunkSize / 2` and
`baseChunkSize * 1.5 = baseChunkSize * 3 / 2` are exact in `Nat`. -/
def adjustedChunkSize (tm : TaskManager) (workerPerformance : WorkerPerformance)
    (globalAverageTime : Rat) : Nat :=
  match workerPerformance with
  | .slow => max (calculateChunkSize tm globalAverageTime / 2) MIN_CHUNK_SIZE
  | .fast => min (calculateChunkSize tm globalAverageTime * 3 / 2)
      MAX_CHUNK_SIZE
  | .average => calculateChunkSize tm globalAverageTime

/-- `createAdaptiveTask(startByte, endByte, workerPerformance,
globalAverageTime)` (part_000 lines 72-101): mints
`[startByte, startByte + min(adjustedChunkSize, endByte - startByte))`
under the next id and bumps the id counter. -/
def createAdaptiveTask (tm : TaskManager) (startByte endByte : Nat)
    (workerPerformance : WorkerPerformance) (globalAverageTime : Rat) :
    Task × TaskManager :=
  let actualChunkSize :=
    min (adjustedChunkSize tm workerPerformance globalAverageTime)
      (endByte - startByte)
  (⟨startByte, startByte + actualChunkSize, tm.taskIdCounter⟩,
    { tm with taskIdCounter := tm.taskIdCounter + 1 })

/-- The task-minting loop of `createInitialTasks` (part_000 lines 17-23):
`for (startByte = 0; startByte < fileSize; startByte += chunk)`, carrying
the running id counter.  The first argument is a structural iteration
budget; the caller passes `fileSize`, which suffices since the chunk size
is positive (`calculateOptimalChunkSize_pos`) and the loop advances
`startByte` by it while `startByte < fileSize`
(`createInitialTasksAux_stable`). -/
def createInitialTasksAux (chunk fileSize : Nat) :
    Nat → Nat → Nat → List Task × Nat
  | 0, _, counter => ([], counter)
  | fuel + 1, startByte, counter =>
    if startByte < fileSize then
      let rest := createInitialTasksAux chunk fileSize fuel
        (startByte + chunk) (counter + 1)
      (⟨startByte, min (startByte + chunk) fileSize, counter⟩ :: rest.1,
        rest.2)
    else ([], counter)

/-- `createInitialTasks(fileSize)` (part_000 lines 12-26). -/
def createInitialTasks (ncores : Nat) (tm : TaskManager) (fileSize : Nat) :
    List Task × TaskManager :=
  let res := createInitialTasksAux (calculateOptimalChunkSize ncores fileSize)
    fileSize fileSize 0 tm.taskIdCounter
  (res.1, { tm with taskIdCounter := res.2 })

/-- `addPerformanceData(processingTime)` (part_000 lines 103-113): keep at
most 20 recent times and recompute their mean. -/
def addPerformanceData (tm : TaskManager) (processingTime : Rat) : TaskManager :=
  let shifted := if 20 ≤ tm.performanceHistory.length then
    tm.performanceHistory.drop 1 else tm.performanceHistory
  let hist := shifted ++ [processingTime]
  { tm with
    performanceHistory := hist
    recentGlobalAverage := (hist.foldl (· + ·) 0) / (hist.length : Rat) }

/-! ## Worker stats (src/unnamed/part_004, `WorkerStatsManager`) -/

/-- Mutable state of the `WorkerStatsManager`: the two `Map`s, the running
global average, the completed-task counter and the spinlock flag.  The
progress-printing timestamps are write-only console state and are not part
of the model. -/
structure WorkerStatsManager where
  workerStats : Nat → Option WorkerStatsEntry
  currentTasks : Nat → Option Task
  globalAverageProcessingTime : Rat
  totalTasksCompleted : Nat
  updateLock : Bool

/-- A freshly constructed `WorkerStatsManager`. -/
def WorkerStatsManager.new : WorkerStatsManager :=
  { workerStats := fun _ => none
    currentTasks := fun _ => none
    globalAverageProcessingTime := 0
    totalTasksCompleted := 0
    updateLock := false }

/-- `initWorkerStats(workerId)` (part_004 lines 12-19): store a zeroed
entry for the worker. -/
def initWorkerStats (m : WorkerStatsManager) (workerId : Nat) :
    WorkerStatsManager :=
  { m with workerStats := fun w =>
      if w = workerId then some ⟨0, 0, 0, 0⟩ else m.workerStats w }

/-- `updateWorkerStats(result)` (part_004 lines 21-50).  The call first
busy-waits on `updateLock`; a call entered with the lock held never leaves
the `while` loop, which `none` models.  Otherwise the lock is taken and —
through the `finally` — released, so the post-state lock is `false`; when
the worker has no stats entry the body does nothing, and when it has one
the per-worker counters, the running global average and the completed-task
counter are updated and the current-task entry is deleted. -/
def updateWorkerStats (m : WorkerStatsManager) (result : WorkerResult) :
    Option WorkerStatsManager :=
  if m.updateLock then none
  else
    match m.workerStats result.workerId with
    | none => some { m with updateLock := false }
    | some stats =>
      let tasksCompleted := stats.tasksCompleted + 1
      let totalProcessingTime := stats.totalProcessingTime +
        result.processingTime
      let entry : WorkerStatsEntry :=
        { tasksCompleted := tasksCompleted
          totalProcessingTime := totalProcessingTime
          primesFound := stats.primesFound + result.count
          avgProcessingTime := totalProcessingTime / (tasksCompleted : Rat) }
      let total := m.totalTasksCompleted + 1
      some
        { workerStats := fun w =>
            if w = result.workerId then some entry else m.workerStats w
          currentTasks := fun w =>
            if w = result.workerId then none else m.currentTasks w
          globalAverageProcessingTime :=
            (m.globalAverageProcessingTime * ((total : Rat) - 1) +
              result.processingTime) / (total : Rat)
          totalTasksCompleted := total
          updateLock := false }

/-- `setCurrentTask(workerId, task)` (part_004 lines 53-55). -/
def setCurrentTask (m : WorkerStatsManager) (workerId : Nat) (task : Task) :
    WorkerStatsManager :=
  { m with currentTasks := fun w =>
      if w = workerId then some task else m.currentTasks w }

/-- `clearWorkerTask(workerId)` (part_004 lines 63-65). -/
def clearWorkerTask (m : WorkerStatsManager) (workerId : Nat) :
    WorkerStatsManager :=
  { m with currentTasks := fun w =>
      if w = workerId then none else m.currentTasks w }

/-- `getCurrentTask(workerId)` (part_004 lines 58-60). -/
def getCurrentTask (m : WorkerStatsManager) (workerId : Nat) : Option Task :=
  m.currentTasks workerId

/-- The threshold classification `ratio = avg / globalAvg` of
`getWorkerPerformance` (part_004 lines 78-86), with the IEEE outcomes made
explicit for a zero divisor: `avg / 0` is `Infinity` (`> 1.2`, hence
`slow`) for positive `avg`, `-Infinity` (hence `fast`) for negative
`avg`, and `NaN` (every comparison false, hence `average`) for
`avg = 0`. -/
def classifyRatio (avg globalAvg : Rat) : WorkerPerformance :=
  if globalAvg = 0 then
    if avg > 0 then .slow else if avg < 0 then .fast else .average
  else
    let ratio := avg / globalAvg
    if ratio > 1.2 then .slow
    else if ratio < 0.8 then .fast
    else .average

/-- `getWorkerPerformance(workerId)` (part_004 lines 68-87). -/
def getWorkerPerformance (m : WorkerStatsManager) (workerId : Nat) :
    WorkerPerformance :=
  if m.totalTasksCompleted < 3 then .average
  else
    match m.workerStats workerId with
    | none => .average
    | some stats =>
      if stats.tasksCompleted = 0 then .average
      else classifyRatio stats.avgProcessingTime m.globalAverageProcessingTime

/-! ## Orchestrator (src/unnamed/part_003, main thread)

The orchestrator's mutable state is the stats manager, the task manager,
the `busyWorkers` set (a JavaScript `Set`, which preserves insertion
order: a `List Nat` without duplicates), the `failedTasks` and `tasks`
arrays and the `remainingFileRange` cursor. -/

/-- `Array.prototype.pop`: the last element and the rest. -/
def jsPop (l : List Task) : Option Task × List Task :=
  (l.getLast?, l.dropLast)

/-- `Set.prototype.add`. -/
def busyAdd (l : List Nat) (w : Nat) : List Nat :=
  if w ∈ l then l else l ++ [w]

/-- `Set.prototype.delete`. -/
def busyDelete (l : List Nat) (w : Nat) : List Nat :=
  l.filter (· ≠ w)

/-- The orchestrator state captured by the claims. -/
structure MainState where
  statsManager : WorkerStatsManager
  taskManager : TaskManager
  busyWorkers : List Nat
  failedTasks : List Task
  tasks : List Task
  remainingFileRange : Option (Nat × Nat)

/-- The state effect of `createWorker(workerId, initialTask)` (part_003
lines 34-48, before the event handlers are registered): the stats entry
for `workerId` is (re-)initialized to zero, the worker is marked busy and
the initial task is recorded as its current task. -/
def createWorker (s : MainState) (workerId : Nat) (initialTask : Task) :
    MainState :=
  { s with
    statsManager := setCurrentTask (initWorkerStats s.statsManager workerId)
      workerId initialTask
    busyWorkers := busyAdd s.busyWorkers workerId }

/-- Lines 69-74 of part_003: after a replacement task has been drawn, if
the remaining range exists and the task starts at or beyond its cursor,
the cursor advances past the task (and the range becomes `null` when
exhausted). -/
def advanceRemainingRange (s : MainState) (t : Task) : MainState :=
  match s.remainingFileRange with
  | none => s
  | some range =>
    if range.1 ≤ t.startByte then
      if range.2 ≤ t.endByte then { s with remainingFileRange := none }
      else { s with remainingFileRange := some (t.endByte, range.2) }
    else s

/-- The `worker.on('error', ...)` handler of part_003 lines 52-78: re-queue
the dying worker's current task onto `failedTasks`, un-busy the worker and
— when any work remains — draw a replacement task
(`failedTasks.pop() || tasks.pop() || (remainingFileRange &&
createAdaptiveTask(...))`), advance the remaining range past it if
applicable and spawn a replacement worker under the same `workerId`. -/
def onWorkerError (s : MainState) (workerId : Nat) : MainState :=
  let s1 := match getCurrentTask s.statsManager workerId with
    | some t => { s with failedTasks := s.failedTasks ++ [t] }
    | none => s
  let s2 := { s1 with busyWorkers := busyDelete s1.busyWorkers workerId }
  if s2.tasks ≠ [] ∨ s2.failedTasks ≠ [] ∨ s2.remainingFileRange ≠ none then
    match jsPop s2.failedTasks with
    | (some rt, failedRest) =>
      createWorker (advanceRemainingRange
        { s2 with failedTasks := failedRest } rt) workerId rt
    | (none, _) =>
      match jsPop s2.tasks with
      | (some rt, tasksRest) =>
        createWorker (advanceRemainingRange
          { s2 with tasks := tasksRest } rt) workerId rt
      | (none, _) =>
        match s2.remainingFileRange with
        | some range =>
          let minted := createAdaptiveTask s2.taskManager range.1 range.2
            .average s2.statsManager.globalAverageProcessingTime
          createWorker (advanceRemainingRange
            { s2 with taskManager := minted.2 } minted.1) workerId minted.1
        | none => s2
  else s2

/-- `assignTaskToWorker(worker, workerId)` (part_003 lines 109-176).
Returns the successor state together with the message posted to the
worker: `some task` for a `task` message, `none` for `exit`.  The two
empty-list fallbacks inside the main-queue branch are unreachable (the
queue was just checked non-empty and sorting preserves length); they only
make the match total. -/
def assignTaskToWorker (s : MainState) (workerId : Nat) :
    MainState × Option Task :=
  match jsPop s.failedTasks with
  | (some task, failedRest) =>
    ({ s with
        failedTasks := failedRest
        busyWorkers := busyAdd s.busyWorkers workerId
        statsManager := setCurrentTask s.statsManager workerId task },
      some task)
  | (none, _) =>
    if s.tasks ≠ [] then
      if getWorkerPerformance s.statsManager workerId = .slow ∧
          1 < s.tasks.length then
        match s.tasks.mergeSort
          (fun a b => a.endByte - a.startByte ≤ b.endByte - b.startByte) with
        | task :: sortedRest =>
          ({ s with
              tasks := sortedRest
              busyWorkers := busyAdd s.busyWorkers workerId
              statsManager := setCurrentTask s.statsManager workerId task },
            some task)
        | [] => (s, none)
      else
        match jsPop s.tasks with
        | (some task, tasksRest) =>
          ({ s with
              tasks := tasksRest
              busyWorkers := busyAdd s.busyWorkers workerId
              statsManager := setCurrentTask s.statsManager workerId task },
            some task)
        | (none, _) => (s, none)
    else
      match s.remainingFileRange with
      | some range =>
        let minted := createAdaptiveTask s.taskManager range.1 range.2
          (getWorkerPerformance s.statsManager workerId)
          s.statsManager.globalAverageProcessingTime
        let rem' := if range.2 ≤ minted.1.endByte then none
          else some (minted.1.endByte, range.2)
        ({ s with
            taskManager := minted.2
            remainingFileRange := rem'
            busyWorkers := busyAdd s.busyWorkers workerId
            statsManager := setCurrentTask s.statsManager workerId minted.1 },
          some minted.1)
      | none => (s, none)

/-! ## Operation sequences

Two small step models close the state spaces the invariant claims range
over: the mint operations of one `TaskManager` instance and the method
calls of one `WorkerStatsManager` instance. -/

/-- A call that mints tasks or records a duration on the task manager. -/
inductive TaskManagerOp where
  | initial (fileSize : Nat)
  | adaptive (startByte endByte : Nat) (perf : WorkerPerformance)
      (globalAverageTime : Rat)
  | record (processingTime : Rat)

/-- The tasks minted by one call together with the successor manager. -/
def mintOp (ncores : Nat) (tm : TaskManager) :
    TaskManagerOp → List Task × TaskManager
  | .initial fileSize => createInitialTasks ncores tm fileSize
  | .adaptive s e perf g =>
    let r := createAdaptiveTask tm s e perf g
    ([r.1], r.2)
  | .record t => ([], addPerformanceData tm t)

/-- All tasks minted by a call sequence, in order. -/
def runOps (ncores : Nat) (tm : TaskManager) :
    List TaskManagerOp → List Task × TaskManager
  | [] => ([], tm)
  | op :: ops =>
    let r := mintOp ncores tm op
    let rest := runOps ncores r.2 ops
    (r.1 ++ rest.1, rest.2)

/-- The stats-manager states reachable through its public methods from a
fresh instance.  `updateWorkerStats` contributes a successor state exactly
when the call terminates (the busy-wait loop is modelled by `none`); the
remaining methods are total.  No method outside this list touches
`updateLock` in the source. -/
inductive ReachableStats : WorkerStatsManager → Prop where
  | new : ReachableStats WorkerStatsManager.new
  | init {m} (w : Nat) : ReachableStats m → ReachableStats (initWorkerStats m w)
  | update {m m'} (r : WorkerResult) : ReachableStats m →
      updateWorkerStats m r = some m' → ReachableStats m'
  | setCur {m} (w : Nat) (t : Task) : ReachableStats m →
      ReachableStats (setCurrentTask m w t)
  | clearTask {m} (w : Nat) : ReachableStats m →
      ReachableStats (clearWorkerTask m w)

/-! ## A reference primality checker

The following definitions are not translated from the repository: they are
a textbook trial-division primality test, stated so that the kernel can
evaluate it, used solely as the comparison point for the repository's
`isPrime` (`natPrimeCheck_iff` proves it decides `Nat.Prime`). -/

/-- Check that no `m` with `d ≤ m` and `m * m ≤ n` divides `n`; the first
argument is a structural iteration budget. -/
def noDivisorsFrom (n : Nat) : Nat → Nat → Bool
  | 0, _ => true
  | fuel + 1, d =>
    if d * d ≤ n then
      if n % d = 0 then false else noDivisorsFrom n fuel (d + 1)
    else true

/-- Reference primality: `2 ≤ n` and no divisor in `[2, √n]`. -/
def natPrimeCheck (n : Nat) : Bool :=
  decide (2 ≤ n) && noDivisorsFrom n n 2

/-- `isPrime` agrees with the reference checker on `[lo, lo + k)`. -/
def isPrimeAgreesRange (lo : Nat) : Nat → Bool
  | 0 => true
  | k + 1 =>
    if isPrime (Int.ofNat (lo + k)) = natPrimeCheck (lo + k) then
      isPrimeAgreesRange lo k
    else false

/-! ## Concrete states used by witnesses and counterexamples -/

/-- A stats manager after three completed tasks, worker `0` averaging
`100` against a global average of `50`. -/
def sampleStatsManager : WorkerStatsManager :=
  { workerStats := fun w => if w = 0 then some ⟨2, 200, 3, 100⟩ else none
    currentTasks := fun _ => none
    globalAverageProcessingTime := 50
    totalTasksCompleted := 3
    updateLock := false }

/-- An orchestrator state whose failed queue holds two tasks, the task of
id `1` pushed before the task of id `2`. -/
def sampleAssignState : MainState :=
  { statsManager := WorkerStatsManager.new
    taskManager := TaskManager.new
    busyWorkers := []
    failedTasks := [⟨0, 10, 1⟩, ⟨10, 20, 2⟩]
    tasks := []
    remainingFileRange := none }

/-- An orchestrator state in which worker `0` has accumulated stats
(`2` tasks, `100` ms total, `5` primes, `50` ms average) and is busy on
the task of id `7`. -/
def sampleErrorState : MainState :=
  { statsManager :=
      { workerStats := fun w => if w = 0 then some ⟨2, 100, 5, 50⟩ else none
        currentTasks := fun w => if w = 0 then some ⟨0, 100, 7⟩ else none
        globalAverageProcessingTime := 50
        totalTasksCompleted := 2
        updateLock := false }
    taskManager := TaskManager.new
    busyWorkers := [0]
    failedTasks := []
    tasks := []
    remainingFileRange := none }

/-! # Theorems -/

/-! ## The iteration budgets of the embedded loops are irrelevant

Each fuelled loop above computes the same value under any budget large
enough for its loop to stop on its own; the budgets the wrappers pass are
provably large enough.  These lemmas certify that the budgets are a
termination device only, not a semantic change. -/

theorem powerBigIntAux_stable (m : Nat) :
    ∀ f₁ f₂ base exp res, exp < 2 ^ f₁ → exp < 2 ^ f₂ →
      powerBigIntAux m f₁ base exp res = powerBigIntAux m f₂ base exp res := by
  intro f₁
  induction f₁ with
  | zero =>
    intro f₂ base exp res h₁ h₂
    have hexp : exp = 0 := by simpa using h₁
    subst hexp
    cases f₂ <;> simp [powerBigIntAux]
  | succ f₁ ih =>
    intro f₂ base exp res h₁ h₂
    cases f₂ with
    | zero =>
      have hexp : exp = 0 := by simpa using h₂
      subst hexp
      simp [powerBigIntAux]
    | succ f₂ =>
      simp only [powerBigIntAux]
      by_cases hz : exp = 0
      · rw [if_pos hz, if_pos hz]
      · rw [if_neg hz, if_neg hz]
        have e₁ : (2 : Nat) ^ (f₁ + 1) = 2 * 2 ^ f₁ := by ring
        have e₂ : (2 : Nat) ^ (f₂ + 1) = 2 * 2 ^ f₂ := by ring
        rw [e₁] at h₁
        rw [e₂] at h₂
        exact ih f₂ _ _ _ (by omega) (by omega)

theorem millerLoopAux_stable (n : Nat) :
    ∀ f₁ f₂ current_d x, 0 < current_d → n - 1 < current_d * 2 ^ f₁ →
      n - 1 < current_d * 2 ^ f₂ →
      millerLoopAux n f₁ current_d x = millerLoopAux n f₂ current_d x := by
  intro f₁
  induction f₁ with
  | zero =>
    intro f₂ cd x hcd h₁ h₂
    have hstop : ¬ cd * 2 ≤ n - 1 := by simp at h₁; omega
    cases f₂ with
    | zero => rfl
    | succ f₂ =>
      simp only [millerLoopAux]
      rw [if_neg hstop]
  | succ f₁ ih =>
    intro f₂ cd x hcd h₁ h₂
    cases f₂ with
    | zero =>
      have hstop : ¬ cd * 2 ≤ n - 1 := by simp at h₂; omega
      simp only [millerLoopAux]
      rw [if_neg hstop]
    | succ f₂ =>
      simp only [millerLoopAux]
      by_cases hg : cd * 2 ≤ n - 1
      · rw [if_pos hg, if_pos hg]
        have e₁ : cd * 2 ^ (f₁ + 1) = cd * 2 * 2 ^ f₁ := by ring
        have e₂ : cd * 2 ^ (f₂ + 1) = cd * 2 * 2 ^ f₂ := by ring
        rw [e₁] at h₁
        rw [e₂] at h₂
        by_cases h1 : x * x % n = 1
        · rw [if_pos h1, if_pos h1]
        · rw [if_neg h1, if_neg h1]
          by_cases hm : x * x % n = n - 1
          · rw [if_pos hm, if_pos hm]
          · rw [if_neg hm, if_neg hm]
            exact ih f₂ _ _ (by omega) h₁ h₂
      · rw [if_neg hg, if_neg hg]

theorem trialLoopAux_stable (num : Nat) :
    ∀ f₁ f₂ i, num < (i + 6 * f₁) * (i + 6 * f₁) →
      num < (i + 6 * f₂) * (i + 6 * f₂) →
      trialLoopAux num f₁ i = trialLoopAux num f₂ i := by
  intro f₁
  induction f₁ with
  | zero =>
    intro f₂ i h₁ h₂
    simp only [Nat.mul_zero, Nat.add_zero] at h₁
    cases f₂ with
    | zero => rfl
    | succ f₂ =>
      simp only [trialLoopAux]
      rw [if_neg (by omega)]
  | succ f₁ ih =>
    intro f₂ i h₁ h₂
    cases f₂ with
    | zero =>
      simp only [Nat.mul_zero, Nat.add_zero] at h₂
      simp only [trialLoopAux]
      rw [if_neg (by omega)]
    | succ f₂ =>
      simp only [trialLoopAux]
      by_cases hg : i * i ≤ num
      · rw [if_pos hg, if_pos hg]
        by_cases hd : num % i = 0 ∨ num % (i + 2) = 0
        · rw [if_pos hd, if_pos hd]
        · rw [if_neg hd, if_neg hd]
          have e₁ : i + 6 * (f₁ + 1) = i + 6 + 6 * f₁ := by ring
          have e₂ : i + 6 * (f₂ + 1) = i + 6 + 6 * f₂ := by ring
          rw [e₁] at h₁
          rw [e₂] at h₂
          exact ih f₂ (i + 6) h₁ h₂
      · rw [if_neg hg, if_neg hg]

theorem oddPartAux_zero : ∀ fuel, oddPartAux fuel 0 = 0 := by
  intro fuel
  induction fuel with
  | zero => rfl
  | succ fuel ih => simpa [oddPartAux] using ih

theorem oddPartAux_stable :
    ∀ f₁ f₂ d, d < 2 ^ f₁ → d < 2 ^ f₂ →
      oddPartAux f₁ d = oddPartAux f₂ d := by
  intro f₁
  induction f₁ with
  | zero =>
    intro f₂ d h₁ h₂
    have hd : d = 0 := by simpa using h₁
    subst hd
    simp [oddPartAux_zero]
  | succ f₁ ih =>
    intro f₂ d h₁ h₂
    cases f₂ with
    | zero =>
      have hd : d = 0 := by simpa using h₂
      subst hd
      simp [oddPartAux_zero]
    | succ f₂ =>
      simp only [oddPartAux]
      by_cases he : d % 2 = 0
      · rw [if_pos he, if_pos he]
        have e₁ : (2 : Nat) ^ (f₁ + 1) = 2 * 2 ^ f₁ := by ring
        have e₂ : (2 : Nat) ^ (f₂ + 1) = 2 * 2 ^ f₂ := by ring
        rw [e₁] at h₁
        rw [e₂] at h₂
        exact ih f₂ _ (by omega) (by omega)
      · rw [if_neg he, if_neg he]

theorem createInitialTasksAux_stable (chunk fileSize : Nat) :
    ∀ f₁ f₂ startByte counter, fileSize ≤ startByte + chunk * f₁ →
      fileSize ≤ startByte + chunk * f₂ →
      createInitialTasksAux chunk fileSize f₁ startByte counter =
        createInitialTasksAux chunk fileSize f₂ startByte counter := by
  intro f₁
  induction f₁ with
  | zero =>
    intro f₂ s c h₁ h₂
    simp only [Nat.mul_zero, Nat.add_zero] at h₁
    cases f₂ with
    | zero => rfl
    | succ f₂ =>
      simp only [createInitialTasksAux]
      rw [if_neg (by omega)]
  | succ f₁ ih =>
    intro f₂ s c h₁ h₂
    cases f₂ with
    | zero =>
      simp only [Nat.mul_zero, Nat.add_zero] at h₂
      simp only [createInitialTasksAux]
      rw [if_neg (by omega)]
    | succ f₂ =>
      simp only [createInitialTasksAux]
      by_cases hg : s < fileSize
      · rw [if_pos hg, if_pos hg]
        have e₁ : chunk * (f₁ + 1) = chunk + chunk * f₁ := by ring
        have e₂ : chunk * (f₂ + 1) = chunk + chunk * f₂ := by ring
        rw [e₁] at h₁
        rw [e₂] at h₂
        rw [ih f₂ (s + chunk) (c + 1) (by omega) (by omega)]
      · rw [if_neg hg, if_neg hg]

/-- The chunk size of the initial partition is positive whenever the host
has a core and the file is non-empty, so the budget passed by
`createInitialTasks` is provably sufficient. -/
theorem calculateOptimalChunkSize_pos (ncores fileSize : Nat)
    (hcores : 0 < ncores) (hfs : 0 < fileSize) :
    0 < calculateOptimalChunkSize ncores fileSize := by
  unfold calculateOptimalChunkSize ceilDiv
  split_ifs with h₁ h₂
  · exact lt_of_lt_of_le (by norm_num) (le_max_right _ _)
  · exact Nat.div_pos (by omega) (by omega)
  · exact lt_min (lt_of_lt_of_le (by norm_num [MIN_CHUNK_SIZE])
      (le_max_right _ _)) (by norm_num [MAX_CHUNK_SIZE])

/-! ## Small structural lemmas -/

theorem busyAdd_mem (l : List Nat) (w : Nat) : w ∈ busyAdd l w := by
  unfold busyAdd
  split <;> simp_all

theorem advanceRemainingRange_statsManager (s : MainState) (t : Task) :
    (advanceRemainingRange s t).statsManager = s.statsManager := by
  unfold advanceRemainingRange
  rcases s.remainingFileRange with _ | r <;> dsimp <;> split_ifs <;> rfl

theorem advanceRemainingRange_busyWorkers (s : MainState) (t : Task) :
    (advanceRemainingRange s t).busyWorkers = s.busyWorkers := by
  unfold advanceRemainingRange
  rcases s.remainingFileRange with _ | r <;> dsimp <;> split_ifs <;> rfl

theorem advanceRemainingRange_failedTasks (s : MainState) (t : Task) :
    (advanceRemainingRange s t).failedTasks = s.failedTasks := by
  unfold advanceRemainingRange
  rcases s.remainingFileRange with _ | r <;> dsimp <;> split_ifs <;> rfl

theorem advanceRemainingRange_tasks (s : MainState) (t : Task) :
    (advanceRemainingRange s t).tasks = s.tasks := by
  unfold advanceRemainingRange
  rcases s.remainingFileRange with _ | r <;> dsimp <;> split_ifs <;> rfl

theorem updateWorkerStats_isSome (m : WorkerStatsManager)
    (hlock : m.updateLock = false) (r : WorkerResult) :
    (updateWorkerStats m r).isSome = true := by
  unfold updateWorkerStats
  rw [hlock]
  simp only [Bool.false_eq_true, if_false]
  cases m.workerStats r.workerId <;> simp

theorem updateWorkerStats_lock_false (m m' : WorkerStatsManager)
    (r : WorkerResult) (h : updateWorkerStats m r = some m') :
    m'.updateLock = false := by
  unfold updateWorkerStats at h
  split at h
  · exact absurd h (by simp)
  · split at h <;> · rw [← Option.some_inj.mp h]

/-! ## C1 — trailing partial lines (code bug) -/

/-- C1: the claim states that `processTask` never emits a line that begins
inside `[start, end)` but is not terminated by a newline within the range,
so that an integer parsed from a truncated prefix is never counted by the
task in which the line starts.  The code does the opposite: on the file
`"431\n"` the task over `[0, 2)` receives the bytes `"43"`, `readline`
emits that unterminated residue as a line when the ranged stream ends, and
the task parses `43` and counts it as a prime — even though the file's
only integer is `431`. -/
theorem processTask_counts_truncated_prefix :
    taskLines ['4', '3', '1', '\n'] 0 2 = [['4', '3']] ∧
    taskInts ['4', '3', '1', '\n'] 0 2 = [43] ∧
    taskPrimeCount ['4', '3', '1', '\n'] 0 2 = 1 ∧
    fileInts ['4', '3', '1', '\n'] = [431] :=
  ⟨rfl, rfl, rfl, rfl⟩

/-! ## C2 — the union property fails (code bug) -/

/-- C2: the claim states that for every contiguous partition the
concatenated per-range integer sequences equal the whole-file sequence, so
the prime count is split-invariant.  Counterexample: on the file `"43\n"`
(size 3) with the contiguous partition `[0, 1), [1, 3)`, the first range
emits the truncated prefix `4` and the second range's leading-newline skip
discards the rest of the line, so the concatenation is `[4]` and the total
prime count `0`, while reading the whole file yields `[43]` and one
prime. -/
theorem chunk_reader_split_changes_count :
    fileInts ['4', '3', '\n'] = [43] ∧
    taskInts ['4', '3', '\n'] 0 1 ++ taskInts ['4', '3', '\n'] 1 3 = [4] ∧
    filePrimeCount ['4', '3', '\n'] = 1 ∧
    taskPrimeCount ['4', '3', '\n'] 0 1 + taskPrimeCount ['4', '3', '\n'] 1 3
      = 0 :=
  ⟨rfl, rfl, rfl, rfl⟩

/-! ## C9 — results for unknown workers are dropped -/

/-- C9: when `updateWorkerStats` is called (lock free, as on every real
call) with a result whose `workerId` has no initialized stats entry, the
call returns leaving the manager exactly as it was: no per-worker stats,
no global average, no task counter and no current-task entry changes. -/
theorem updateWorkerStats_unknown_worker (m : WorkerStatsManager)
    (r : WorkerResult) (hlock : m.updateLock = false)
    (habsent : m.workerStats r.workerId = none) :
    updateWorkerStats m r = some m := by
  obtain ⟨ws, ct, g, tt, lk⟩ := m
  simp only at hlock habsent
  subst hlock
  simp [updateWorkerStats, habsent]

/-- Witness for C9: a fresh manager has no entry for worker `5`, and an
update for worker `5` leaves it unchanged. -/
theorem updateWorkerStats_unknown_worker_witness :
    updateWorkerStats WorkerStatsManager.new ⟨4, 5, ⟨0, 10, 0⟩, 1⟩ =
      some WorkerStatsManager.new :=
  updateWorkerStats_unknown_worker WorkerStatsManager.new
    ⟨4, 5, ⟨0, 10, 0⟩, 1⟩ rfl rfl

/-! ## C10 — the busy-wait on updateLock never spins -/

/-- C10: in every stats-manager state reachable through the manager's
methods from a fresh instance, `updateLock` is `false` — it is taken and
released within one synchronous `updateWorkerStats` call and no other
method touches it — so the busy-wait loop at the head of
`updateWorkerStats` never executes an iteration and every call
terminates (`isSome`). -/
theorem updateLock_never_spins (m : WorkerStatsManager)
    (hm : ReachableStats m) :
    m.updateLock = false ∧
      ∀ r : WorkerResult, (updateWorkerStats m r).isSome = true := by
  have hlock : m.updateLock = false := by
    induction hm with
    | new => rfl
    | init w _ ih => simpa [initWorkerStats] using ih
    | update r _ heq _ => exact updateWorkerStats_lock_false _ _ _ heq
    | setCur w t _ ih => simpa [setCurrentTask] using ih
    | clearTask w _ ih => simpa [clearWorkerTask] using ih
  exact ⟨hlock, fun r => updateWorkerStats_isSome m hlock r⟩

/-- Witness for C10 at the freshly constructed manager. -/
theorem updateLock_never_spins_witness :
    WorkerStatsManager.new.updateLock = false ∧
      (updateWorkerStats WorkerStatsManager.new ⟨0, 0, ⟨0, 1, 0⟩, 1⟩).isSome
        = true :=
  ⟨(updateLock_never_spins WorkerStatsManager.new ReachableStats.new).1,
    (updateLock_never_spins WorkerStatsManager.new ReachableStats.new).2
      ⟨0, 0, ⟨0, 1, 0⟩, 1⟩⟩

/-! ## C7 — performance classification -/

/-- C7: `getWorkerPerformance` returns `average` when fewer than three
tasks have completed globally, or when the worker has no stats entry or no
completed tasks; otherwise (with a positive global average, so the ratio
is an ordinary quotient) it classifies by `r = avg / globalAvg`: `slow`
when `r > 1.2`, `fast` when `r < 0.8`, `average` otherwise. -/
theorem getWorkerPerformance_spec (m : WorkerStatsManager) (w : Nat) :
    (m.totalTasksCompleted < 3 → getWorkerPerformance m w = .average) ∧
    (m.workerStats w = none → getWorkerPerformance m w = .average) ∧
    (∀ st, m.workerStats w = some st → st.tasksCompleted = 0 →
      getWorkerPerformance m w = .average) ∧
    (∀ st, m.workerStats w = some st → st.tasksCompleted ≠ 0 →
      3 ≤ m.totalTasksCompleted → 0 < m.globalAverageProcessingTime →
      getWorkerPerformance m w =
        (if st.avgProcessingTime / m.globalAverageProcessingTime > 1.2 then
          .slow
        else if st.avgProcessingTime / m.globalAverageProcessingTime < 0.8
          then .fast
        else .average)) := by
  refine ⟨fun h => ?_, fun h => ?_, fun st hst hz => ?_, fun st hst hz h3 hg => ?_⟩
  · simp [getWorkerPerformance, h]
  · unfold getWorkerPerformance
    rw [h]
    simp
  · unfold getWorkerPerformance
    rw [hst]
    simp [hz]
  · unfold getWorkerPerformance
    rw [if_neg (by omega), hst]
    simp only [hz, if_false, classifyRatio, hg.ne', ite_false]

/-- Witness for C7: with three tasks completed globally, a worker
averaging `100` against a global average of `50` (ratio `2 > 1.2`) is
classified `slow`. -/
theorem getWorkerPerformance_spec_witness :
    getWorkerPerformance sampleStatsManager 0 = .slow := by
  have h := (getWorkerPerformance_spec sampleStatsManager 0).2.2.2
    ⟨2, 200, 3, 100⟩ rfl (by norm_num) (by norm_num [sampleStatsManager])
    (by norm_num [sampleStatsManager])
  rw [h]
  norm_num [sampleStatsManager]

/-! ## C4 — failed-queue priority, but LIFO rather than FIFO -/

/-- C4, counterexample to the claim as stated: with the failed queue
holding the task of id `1` (pushed first, hence the front/oldest element)
and then the task of id `2`, `assignTaskToWorker` dispatches the task of
id `2` — `failedTasks.pop()` takes the back, most recently pushed
element, not the front one the claim names. -/
theorem assignTask_fifo_counterexample :
    (assignTaskToWorker sampleAssignState 0).2 = some ⟨10, 20, 2⟩ ∧
    sampleAssignState.failedTasks.head? = some ⟨0, 10, 1⟩ ∧
    (⟨10, 20, 2⟩ : Task) ≠ ⟨0, 10, 1⟩ :=
  ⟨rfl, rfl, by decide⟩

/-- C4 as amended: whenever the failed queue is non-empty,
`assignTaskToWorker` dispatches from it before touching the main queue or
minting an adaptive task — the main queue, the remaining range and the
task manager are untouched — but the queue is drained in LIFO order: the
dispatched task is the back (most recently pushed) element, which also
becomes the worker's current task. -/
theorem assignTask_failed_priority (s : MainState) (w : Nat)
    (front : List Task) (t : Task) (h : s.failedTasks = front ++ [t]) :
    (assignTaskToWorker s w).2 = some t ∧
    (assignTaskToWorker s w).1.failedTasks = front ∧
    (assignTaskToWorker s w).1.tasks = s.tasks ∧
    (assignTaskToWorker s w).1.remainingFileRange = s.remainingFileRange ∧
    (assignTaskToWorker s w).1.taskManager = s.taskManager ∧
    getCurrentTask (assignTaskToWorker s w).1.statsManager w = some t := by
  unfold assignTaskToWorker jsPop
  rw [h, List.getLast?_concat, List.dropLast_concat]
  simp [getCurrentTask, setCurrentTask]

/-- Witness for C4 (amended) at the two-element failed queue. -/
theorem assignTask_failed_priority_witness :
    (assignTaskToWorker sampleAssignState 0).2 = some ⟨10, 20, 2⟩ ∧
    (assignTaskToWorker sampleAssignState 0).1.failedTasks = [⟨0, 10, 1⟩] ∧
    (assignTaskToWorker sampleAssignState 0).1.tasks =
      sampleAssignState.tasks ∧
    (assignTaskToWorker sampleAssignState 0).1.remainingFileRange =
      sampleAssignState.remainingFileRange ∧
    (assignTaskToWorker sampleAssignState 0).1.taskManager =
      sampleAssignState.taskManager ∧
    getCurrentTask (assignTaskToWorker sampleAssignState 0).1.statsManager 0 =
      some ⟨10, 20, 2⟩ :=
  assignTask_failed_priority sampleAssignState 0 [⟨0, 10, 1⟩] ⟨10, 20, 2⟩ rfl

/-! ## C3 — replacement after a worker error resets the stats -/

/-- C3, counterexample to the claim as stated: worker `0` dies holding
the task of id `7` after having accumulated stats `⟨2, 100, 5, 50⟩`; work
remains (its own task is re-queued), a replacement is spawned — and
`createWorker`'s call to `initWorkerStats` wipes the accumulated stats to
`⟨0, 0, 0, 0⟩` instead of preserving them. -/
theorem onWorkerError_resets_stats_counterexample :
    sampleErrorState.statsManager.workerStats 0 = some ⟨2, 100, 5, 50⟩ ∧
    (onWorkerError sampleErrorState 0).statsManager.workerStats 0 =
      some ⟨0, 0, 0, 0⟩ ∧
    (⟨2, 100, 5, 50⟩ : WorkerStatsEntry) ≠ ⟨0, 0, 0, 0⟩ :=
  ⟨rfl, rfl, by decide⟩

/-- C3 as amended: when a worker errors while holding a current task, the
orchestrator re-queues that task, spawns a replacement worker under the
same worker id (it is busy again), and the replacement draws from the
failed queue first — the just-pushed failed task itself comes back as its
initial task, leaving the failed queue as it was — but the worker's stats
entry is re-initialized to zeros by `initWorkerStats` rather than
preserved. -/
theorem onWorkerError_replacement (s : MainState) (w : Nat) (t : Task)
    (h : getCurrentTask s.statsManager w = some t) :
    (onWorkerError s w).statsManager.workerStats w = some ⟨0, 0, 0, 0⟩ ∧
    getCurrentTask (onWorkerError s w).statsManager w = some t ∧
    w ∈ (onWorkerError s w).busyWorkers ∧
    (onWorkerError s w).failedTasks = s.failedTasks := by
  unfold onWorkerError jsPop
  rw [h]
  simp only [List.getLast?_concat, List.dropLast_concat]
  rw [if_pos (Or.inr (Or.inl (by simp)))]
  refine ⟨?_, ?_, ?_, ?_⟩
  · simp [createWorker, setCurrentTask, initWorkerStats,
      advanceRemainingRange_statsManager]
  · simp [createWorker, getCurrentTask, setCurrentTask,
      advanceRemainingRange_statsManager]
  · simp only [createWorker, advanceRemainingRange_busyWorkers]
    exact busyAdd_mem _ w
  · simp [createWorker, advanceRemainingRange_failedTasks]

/-- Witness for C3 (amended) at the concrete erroring state. -/
theorem onWorkerError_replacement_witness :
    (onWorkerError sampleErrorState 0).statsManager.workerStats 0 =
      some ⟨0, 0, 0, 0⟩ ∧
    getCurrentTask (onWorkerError sampleErrorState 0).statsManager 0 =
      some ⟨0, 100, 7⟩ ∧
    0 ∈ (onWorkerError sampleErrorState 0).busyWorkers ∧
    (onWorkerError sampleErrorState 0).failedTasks =
      sampleErrorState.failedTasks :=
  onWorkerError_replacement sampleErrorState 0 ⟨0, 100, 7⟩ rfl

/-! ## C6 — adaptive task shape and bounds -/

theorem calculateChunkSize_cases (tm : TaskManager) (g : Rat) :
    calculateChunkSize tm g = MIN_CHUNK_SIZE ∨
    calculateChunkSize tm g = (MIN_CHUNK_SIZE + MAX_CHUNK_SIZE) / 4 ∨
    calculateChunkSize tm g = (MIN_CHUNK_SIZE + MAX_CHUNK_SIZE) / 2 ∨
    calculateChunkSize tm g = MAX_CHUNK_SIZE := by
  simp only [calculateChunkSize]
  split_ifs <;> tauto

theorem adjustedChunkSize_bounds (tm : TaskManager)
    (perf : WorkerPerformance) (g : Rat) :
    MIN_CHUNK_SIZE ≤ adjustedChunkSize tm perf g ∧
      adjustedChunkSize tm perf g ≤ MAX_CHUNK_SIZE := by
  have h := calculateChunkSize_cases tm g
  unfold adjustedChunkSize
  cases perf <;> rcases h with h | h | h | h <;> rw [h] <;>
    norm_num [MIN_CHUNK_SIZE, MAX_CHUNK_SIZE]

/-- C6: `createAdaptiveTask(rem_start, rem_end, class, avg)` with
`rem_start < rem_end` returns the range
`[rem_start, rem_start + min(adjusted, rem_end - rem_start))` under a
fresh id (the current counter, which is then bumped), where `adjusted` is
the class-adjusted base size; consequently the minted task's byte size
lies in `[MIN_CHUNK_SIZE, MAX_CHUNK_SIZE]` unless it is truncated by the
remaining range, in which case it equals `rem_end - rem_start`. -/
theorem createAdaptiveTask_spec (tm : TaskManager) (s e : Nat)
    (perf : WorkerPerformance) (g : Rat) (h : s < e) :
    (createAdaptiveTask tm s e perf g).1.startByte = s ∧
    (createAdaptiveTask tm s e perf g).1.endByte =
      s + min (adjustedChunkSize tm perf g) (e - s) ∧
    (createAdaptiveTask tm s e perf g).1.id = tm.taskIdCounter ∧
    (createAdaptiveTask tm s e perf g).2.taskIdCounter =
      tm.taskIdCounter + 1 ∧
    ((MIN_CHUNK_SIZE ≤ (createAdaptiveTask tm s e perf g).1.endByte -
          (createAdaptiveTask tm s e perf g).1.startByte ∧
        (createAdaptiveTask tm s e perf g).1.endByte -
          (createAdaptiveTask tm s e perf g).1.startByte ≤ MAX_CHUNK_SIZE) ∨
      (createAdaptiveTask tm s e perf g).1.endByte -
          (createAdaptiveTask tm s e perf g).1.startByte = e - s) := by
  refine ⟨rfl, rfl, rfl, rfl, ?_⟩
  have hb := adjustedChunkSize_bounds tm perf g
  simp only [createAdaptiveTask, Nat.add_sub_cancel_left]
  rcases Nat.le_total (adjustedChunkSize tm perf g) (e - s) with hle | hle
  · rw [min_eq_left hle]
    exact Or.inl hb
  · rw [min_eq_right hle]
    exact Or.inr rfl

/-- Witness for C6: a fresh manager with no timing data mints, for an
average worker over a 2 MiB remaining range, the truncated task
`[0, 2097152)` of id `0`. -/
theorem createAdaptiveTask_spec_witness :
    (createAdaptiveTask TaskManager.new 0 2097152 .average 0).1.startByte
        = 0 ∧
    (createAdaptiveTask TaskManager.new 0 2097152 .average 0).1.endByte =
      0 + min (adjustedChunkSize TaskManager.new .average 0) (2097152 - 0) ∧
    (createAdaptiveTask TaskManager.new 0 2097152 .average 0).1.id =
      TaskManager.new.taskIdCounter ∧
    (createAdaptiveTask TaskManager.new 0 2097152 .average 0).2.taskIdCounter
      = TaskManager.new.taskIdCounter + 1 ∧
    ((MIN_CHUNK_SIZE ≤
          (createAdaptiveTask TaskManager.new 0 2097152 .average 0).1.endByte -
          (createAdaptiveTask TaskManager.new 0 2097152 .average 0).1.startByte
        ∧ (createAdaptiveTask TaskManager.new 0 2097152 .average 0).1.endByte -
          (createAdaptiveTask TaskManager.new 0 2097152 .average 0).1.startByte
          ≤ MAX_CHUNK_SIZE) ∨
      (createAdaptiveTask TaskManager.new 0 2097152 .average 0).1.endByte -
        (createAdaptiveTask TaskManager.new 0 2097152 .average 0).1.startByte
        = 2097152 - 0) :=
  createAdaptiveTask_spec TaskManager.new 0 2097152 .average 0 (by norm_num)

/-! ## C8 — task ids are pairwise distinct -/

theorem createInitialTasksAux_ids (chunk fileSize : Nat) :
    ∀ fuel startByte counter,
      ((createInitialTasksAux chunk fileSize fuel startByte counter).1.map
        Task.id).Pairwise (· < ·) ∧
      counter ≤ (createInitialTasksAux chunk fileSize fuel startByte counter).2
      ∧
      ∀ i ∈ (createInitialTasksAux chunk fileSize fuel startByte counter).1.map
          Task.id,
        counter ≤ i ∧
          i < (createInitialTasksAux chunk fileSize fuel startByte counter).2
      := by
  intro fuel
  induction fuel with
  | zero => simp [createInitialTasksAux]
  | succ fuel ih =>
    intro startByte counter
    by_cases hg : startByte < fileSize
    · obtain ⟨h1, h2, h3⟩ := ih (startByte + chunk) (counter + 1)
      simp only [createInitialTasksAux, if_pos hg, List.map_cons,
        List.pairwise_cons, List.mem_cons]
      refine ⟨⟨fun i hi => ?_, h1⟩, by omega, ?_⟩
      · have := (h3 i hi).1
        omega
      · rintro i (rfl | hi)
        · exact ⟨Nat.le_refl _, by omega⟩
        · have := h3 i hi
          omega
    · simp [createInitialTasksAux, if_neg hg]

theorem mintOp_ids (ncores : Nat) (tm : TaskManager) (op : TaskManagerOp) :
    ((mintOp ncores tm op).1.map Task.id).Pairwise (· < ·) ∧
    tm.taskIdCounter ≤ (mintOp ncores tm op).2.taskIdCounter ∧
    ∀ i ∈ (mintOp ncores tm op).1.map Task.id,
      tm.taskIdCounter ≤ i ∧ i < (mintOp ncores tm op).2.taskIdCounter := by
  cases op with
  | initial fileSize =>
    simpa [mintOp, createInitialTasks] using
      createInitialTasksAux_ids (calculateOptimalChunkSize ncores fileSize)
        fileSize fileSize 0 tm.taskIdCounter
  | adaptive s e perf g => simp [mintOp, createAdaptiveTask]
  | record t => simp [mintOp, addPerformanceData]

theorem runOps_ids (ncores : Nat) :
    ∀ (ops : List TaskManagerOp) (tm : TaskManager),
      ((runOps ncores tm ops).1.map Task.id).Pairwise (· < ·) ∧
      tm.taskIdCounter ≤ (runOps ncores tm ops).2.taskIdCounter ∧
      ∀ i ∈ (runOps ncores tm ops).1.map Task.id,
        tm.taskIdCounter ≤ i ∧ i < (runOps ncores tm ops).2.taskIdCounter := by
  intro ops
  induction ops with
  | nil => simp [runOps]
  | cons op ops ih =>
    intro tm
    obtain ⟨h1, h2, h3⟩ := mintOp_ids ncores tm op
    obtain ⟨g1, g2, g3⟩ := ih (mintOp ncores tm op).2
    simp only [runOps, List.map_append, List.pairwise_append]
    refine ⟨⟨h1, g1, fun a ha b hb => ?_⟩, by omega, ?_⟩
    · have hha := h3 a ha
      have hgb := g3 b hb
      omega
    · intro i hi
      rcases List.mem_append.mp hi with hi | hi
      · have := h3 i hi
        omega
      · have := g3 i hi
        omega

/-- C8: over any interleaved sequence of `createInitialTasks`,
`createAdaptiveTask` and `addPerformanceData` calls on one fresh
`TaskManager` instance, the ids of all minted tasks are pairwise distinct
— the single id counter strictly increases with every mint. -/
theorem taskIds_pairwise_distinct (ncores : Nat)
    (ops : List TaskManagerOp) :
    ((runOps ncores TaskManager.new ops).1.map Task.id).Pairwise (· ≠ ·) :=
  ((runOps_ids ncores ops TaskManager.new).1).imp Nat.ne_of_lt

/-! ## Partial results toward C5 — `isPrime` below the Miller-Rabin
threshold

The reference checker decides `Nat.Prime`, and `isPrime` agrees with it
on all of `[0, 10000)` — the whole trial-division range — by kernel
computation.  (The `n ≥ 10000` Miller-Rabin range rests on the
computationally-verified determinism of the seven-witness set, which is
outside what can be re-derived here.) -/

theorem noDivisorsFrom_true (n : Nat) :
    ∀ fuel d, noDivisorsFrom n fuel d = true →
      ∀ m, d ≤ m → m < d + fuel → m * m ≤ n → ¬ m ∣ n := by
  intro fuel
  induction fuel with
  | zero =>
    intro d _ m hdm hlt _
    omega
  | succ fuel ih =>
    intro d h m hdm hlt hsq
    simp only [noDivisorsFrom] at h
    by_cases hg : d * d ≤ n
    · rw [if_pos hg] at h
      by_cases hz : n % d = 0
      · rw [if_pos hz] at h
        exact absurd h (by simp)
      · rw [if_neg hz] at h
        rcases eq_or_lt_of_le hdm with rfl | hlt'
        · intro hdvd
          exact hz (Nat.mod_eq_zero_of_dvd hdvd)
        · exact ih (d + 1) h m (by omega) (by omega) hsq
    · exfalso
      have : d * d ≤ m * m := Nat.mul_le_mul hdm hdm
      omega

theorem noDivisorsFrom_of_prime {n : Nat} (hp : Nat.Prime n) :
    ∀ fuel d, 2 ≤ d → noDivisorsFrom n fuel d = true := by
  intro fuel
  induction fuel with
  | zero => intro d _; rfl
  | succ fuel ih =>
    intro d hd
    simp only [noDivisorsFrom]
    by_cases hg : d * d ≤ n
    · rw [if_pos hg]
      have hnd : ¬ n % d = 0 := by
        intro hz
        have hdvd : d ∣ n := Nat.dvd_of_mod_eq_zero hz
        rcases hp.eq_one_or_self_of_dvd d hdvd with h1 | h1
        · omega
        · have h2 := hp.two_le
          subst h1
          nlinarith
      rw [if_neg hnd]
      exact ih (d + 1) (by omega)
    · rw [if_neg hg]

theorem natPrimeCheck_iff (n : Nat) :
    natPrimeCheck n = true ↔ Nat.Prime n := by
  unfold natPrimeCheck
  rw [Bool.and_eq_true, decide_eq_true_iff]
  constructor
  · rintro ⟨h2, hnd⟩
    refine Nat.prime_def_le_sqrt.mpr ⟨h2, fun m hm hms => ?_⟩
    have hsq : m * m ≤ n := Nat.le_sqrt.mp hms
    have hmn : m < 2 + n := by
      have := Nat.sqrt_le_self n
      omega
    exact noDivisorsFrom_true n n 2 hnd m hm hmn hsq
  · intro hp
    exact ⟨hp.two_le, noDivisorsFrom_of_prime hp n 2 (by norm_num)⟩

theorem isPrimeAgreesRange_spec (lo : Nat) :
    ∀ k, isPrimeAgreesRange lo k = true →
      ∀ j, j < k → isPrime (Int.ofNat (lo + j)) = natPrimeCheck (lo + j) := by
  intro k
  induction k with
  | zero =>
    intro _ j hj
    omega
  | succ k ih =>
    intro h j hj
    simp only [isPrimeAgreesRange] at h
    by_cases hc : isPrime (Int.ofNat (lo + k)) = natPrimeCheck (lo + k)
    · rw [if_pos hc] at h
      rcases Nat.lt_succ_iff_lt_or_eq.mp hj with hj | rfl
      · exact ih h j hj
      · exact hc
    · rw [if_neg hc] at h
      exact absurd h (by simp)

theorem isPrimeAgreesRange_append (lo k₁ : Nat) :
    ∀ k₂, isPrimeAgreesRange lo k₁ = true →
      isPrimeAgreesRange (lo + k₁) k₂ = true →
      isPrimeAgreesRange lo (k₁ + k₂) = true := by
  intro k₂
  induction k₂ with
  | zero =>
    intro h _
    simpa using h
  | succ k₂ ih =>
    intro h1 h2
    have e : k₁ + (k₂ + 1) = (k₁ + k₂) + 1 := by omega
    rw [e]
    simp only [isPrimeAgreesRange] at h2 ⊢
    have e2 : lo + k₁ + k₂ = lo + (k₁ + k₂) := by omega
    rw [e2] at h2
    by_cases hc : isPrime (Int.ofNat (lo + (k₁ + k₂))) =
        natPrimeCheck (lo + (k₁ + k₂))
    · rw [if_pos hc] at h2 ⊢
      exact ih h1 h2
    · rw [if_neg hc] at h2
      exact absurd h2 (by simp)

/-- `isPrimeAgreesRange_append` with the combined length and the second
offset given as separate literals, so that the kernel never has to unfold
the checker to identify `k₁ + k₂` with `k₃` or `lo + k₁` with `lo'`. -/
theorem isPrimeAgreesRange_chain (lo k₁ k₂ k₃ lo' : Nat)
    (hk : k₃ = k₁ + k₂) (hlo : lo' = lo + k₁)
    (h₁ : isPrimeAgreesRange lo k₁ = true)
    (h₂ : isPrimeAgreesRange lo' k₂ = true) :
    isPrimeAgreesRange lo k₃ = true := by
  rw [hk]
  rw [hlo] at h₂
  exact isPrimeAgreesRange_append lo k₁ k₂ h₁ h₂

set_option maxRecDepth 8000 in
theorem isPrime_agrees_chunk0 : isPrimeAgreesRange 0 1000 = true := by rfl

set_option maxRecDepth 8000 in
theorem isPrime_agrees_chunk1 : isPrimeAgreesRange 1000 1000 = true := by rfl

set_option maxRecDepth 8000 in
theorem isPrime_agrees_chunk2 : isPrimeAgreesRange 2000 1000 = true := by rfl

set_option maxRecDepth 8000 in
theorem isPrime_agrees_chunk3 : isPrimeAgreesRange 3000 1000 = true := by rfl

set_option maxRecDepth 8000 in
theorem isPrime_agrees_chunk4 : isPrimeAgreesRange 4000 1000 = true := by rfl

set_option maxRecDepth 8000 in
theorem isPrime_agrees_chunk5 : isPrimeAgreesRange 5000 1000 = true := by rfl

set_option maxRecDepth 8000 in
theorem isPrime_agrees_chunk6 : isPrimeAgreesRange 6000 1000 = true := by rfl

set_option maxRecDepth 8000 in
theorem isPrime_agrees_chunk7 : isPrimeAgreesRange 7000 1000 = true := by rfl

set_option maxRecDepth 8000 in
theorem isPrime_agrees_chunk8 : isPrimeAgreesRange 8000 1000 = true := by rfl

set_option maxRecDepth 8000 in
theorem isPrime_agrees_chunk9 : isPrimeAgreesRange 9000 1000 = true := by rfl

theorem isPrime_agrees_below_10000 : isPrimeAgreesRange 0 10000 = true := by
  have a1 := isPrimeAgreesRange_chain 0 1000 1000 2000 1000 (by norm_num) (by norm_num)
    isPrime_agrees_chunk0 isPrime_agrees_chunk1
  have a2 := isPrimeAgreesRange_chain 0 2000 1000 3000 2000 (by norm_num) (by norm_num)
    a1 isPrime_agrees_chunk2
  have a3 := isPrimeAgreesRange_chain 0 3000 1000 4000 3000 (by norm_num) (by norm_num)
    a2 isPrime_agrees_chunk3
  have a4 := isPrimeAgreesRange_chain 0 4000 1000 5000 4000 (by norm_num) (by norm_num)
    a3 isPrime_agrees_chunk4
  have a5 := isPrimeAgreesRange_chain 0 5000 1000 6000 5000 (by norm_num) (by norm_num)
    a4 isPrime_agrees_chunk5
  have a6 := isPrimeAgreesRange_chain 0 6000 1000 7000 6000 (by norm_num) (by norm_num)
    a5 isPrime_agrees_chunk6
  have a7 := isPrimeAgreesRange_chain 0 7000 1000 8000 7000 (by norm_num) (by norm_num)
    a6 isPrime_agrees_chunk7
  have a8 := isPrimeAgreesRange_chain 0 8000 1000 9000 8000 (by norm_num) (by norm_num)
    a7 isPrime_agrees_chunk8
  exact isPrimeAgreesRange_chain 0 9000 1000 10000 9000 (by norm_num) (by norm_num)
    a8 isPrime_agrees_chunk9

/-- On the entire trial-division range of the source (`n < 10000`),
`isPrime` returns `true` exactly on the primes. -/
theorem isPrime_iff_prime_below_10000 (n : Nat) (hn : n < 10000) :
    isPrime (Int.ofNat n) = true ↔ Nat.Prime n := by
  have h := isPrimeAgreesRange_spec 0 10000 isPrime_agrees_below_10000 n hn
  rw [Nat.zero_add] at h
  rw [h]
  exact natPrimeCheck_iff n

end RebaseCourse
